import Mathlib

/-!
Verification of the hyperbolic Kepler solver `trpz_opt`
(`trapezio_optimized_hyperbolic.py`).

The solver computes, for an array of mean anomalies `M`, the hyperbolic
anomaly `z` with `e·sinh z − z = M` by a Delves–Lyness contour-integral
formula evaluated with the composite trapezoidal rule on `[0, π]`.

The embedding below translates the source line by line over exact reals
(`ℝ`) and complexes (`ℂ`); decimal literals are read as exact rationals.
Arrays become `List ℝ`, the two input assertions become an
`Except String` result.
-/

/-- Threshold `t1 = sqrt(6)·(e−1)**1.5 / sqrt(np.e)` from the source's
first filter (`np.e` is Euler's number `exp 1`). -/
noncomputable def t1val (e : ℝ) : ℝ :=
  Real.sqrt 6 * (e - 1) ^ (1.5 : ℝ) / Real.sqrt (Real.exp 1)

/-- The source's upper-bound array construction (lines 45–56): filter the
input into three value-based buckets `c1, c2, c3`, apply the regime
formula to each bucket, and concatenate (`np.hstack`).  Exponents are the
source's literals `0.3333333333333` and `0.2`. -/
noncomputable def xmasList (e : ℝ) (l : List ℝ) : List ℝ :=
  (l.filter (fun M => decide (M ≤ t1val e))).map (fun M => M / (e - 1)) ++
    (((l.filter (fun M => decide (t1val e < M))).filter
        (fun M => decide (M ≤ 14.907 * e))).map
      (fun M => (6 * M / e) ^ ((0.3333333333333 : ℝ)))) ++
    (((l.filter (fun M => decide (t1val e < M))).filter
        (fun M => decide (14.907 * e < M))).map
      (fun M => (120 * M / e) ^ ((0.2 : ℝ))))

/-- Per-element regime formula (spec §4.1, with the source's exponent
literals): the index-preserving upper-bound estimate an aligned
implementation would compute for one mean anomaly.  Stated from the
spec's words for comparison with the source's `xmasList`. -/
noncomputable def xmasFormula (e M : ℝ) : ℝ :=
  if M ≤ t1val e then M / (e - 1)
  else if M ≤ 14.907 * e then (6 * M / e) ^ ((0.3333333333333 : ℝ))
  else (120 * M / e) ^ ((0.2 : ℝ))

/-- Lower bounds `xmenos = np.arcsinh(time_array/excen)` (line 57),
computed in original input order. -/
noncomputable def xmenosList (e : ℝ) (l : List ℝ) : List ℝ :=
  l.map (fun M => Real.arsinh (M / e))

/-- Contour centers `mu = (xmas + xmenos)/2` (line 58). -/
noncomputable def muList (e : ℝ) (l : List ℝ) : List ℝ :=
  List.zipWith (fun a b => (a + b) / 2) (xmasList e l) (xmenosList e l)

/-- Contour radii `rho = (xmas - xmenos)/2` (line 59). -/
noncomputable def rhoList (e : ℝ) (l : List ℝ) : List ℝ :=
  List.zipWith (fun a b => (a - b) / 2) (xmasList e l) (xmenosList e l)

/-- Quadrature node `k` of `np.linspace(0, π, N)` (line 60). -/
noncomputable def node (N k : ℕ) : ℝ :=
  (k : ℝ) * Real.pi / ((N : ℝ) - 1)

/-- Contour point `aux = mu + rho*(cos x + 1j*epsi*sin x)` (line 62). -/
noncomputable def contourPoint (mu rho ε x : ℝ) : ℂ :=
  (mu : ℂ) + (rho : ℂ) *
    ((Real.cos x : ℂ) + Complex.I * (ε : ℂ) * (Real.sin x : ℂ))

/-- The integrand `gnueva(x, t, excen) = 1/(excen*sinh(x) − x − t)`
(lines 39–40). -/
noncomputable def gnueva (x : ℂ) (t e : ℝ) : ℂ :=
  1 / ((e : ℂ) * Complex.sinh x - x - (t : ℂ))

/-- Denominator table entry `tablaD = (1j*epsi*cos x − sin x)·G·rho`
(line 64) at node `k` for one element with bounds `(mu, rho)` and mean
anomaly `M`. -/
noncomputable def tablaD (e ε : ℝ) (N : ℕ) (mu rho M : ℝ) (k : ℕ) : ℂ :=
  (Complex.I * (ε : ℂ) * (Real.cos (node N k) : ℂ) -
      (Real.sin (node N k) : ℂ)) *
    gnueva (contourPoint mu rho ε (node N k)) M e * (rho : ℂ)

/-- Numerator table entry `tablaN = aux * tablaD` (line 65). -/
noncomputable def tablaN (e ε : ℝ) (N : ℕ) (mu rho M : ℝ) (k : ℕ) : ℂ :=
  contourPoint mu rho ε (node N k) * tablaD e ε N mu rho M k

/-- The source's accumulation `f[0] + f[-1] + 2*sum(f[1:N-1])`
(lines 67–68): first node, last node, twice the interior nodes. -/
noncomputable def sumTrapz (N : ℕ) (f : ℕ → ℂ) : ℂ :=
  f 0 + f (N - 1) + 2 * ∑ k in Finset.Ico 1 (N - 1), f k

/-- Accumulated numerator for one element (line 67). -/
noncomputable def numerOne (e ε : ℝ) (N : ℕ) (mu rho M : ℝ) : ℂ :=
  sumTrapz N (tablaN e ε N mu rho M)

/-- Accumulated denominator for one element (line 68). -/
noncomputable def denomOne (e ε : ℝ) (N : ℕ) (mu rho M : ℝ) : ℂ :=
  sumTrapz N (tablaD e ε N mu rho M)

/-- Accumulated numerators, one per input element, pairing the `i`-th
entries of `mu`, `rho` with the `i`-th original mean anomaly. -/
noncomputable def numerList (e ε : ℝ) (N : ℕ) (l : List ℝ) : List ℂ :=
  List.zipWith (fun p M => numerOne e ε N p.1 p.2 M)
    ((muList e l).zip (rhoList e l)) l

/-- Accumulated denominators, one per input element. -/
noncomputable def denomList (e ε : ℝ) (N : ℕ) (l : List ℝ) : List ℂ :=
  List.zipWith (fun p M => denomOne e ε N p.1 p.2 M)
    ((muList e l).zip (rhoList e l)) l

/-- Solution extraction `z0 = imag(numer)/imag(denom)` (line 70). -/
noncomputable def z0List (e ε : ℝ) (N : ℕ) (l : List ℝ) : List ℝ :=
  List.zipWith (fun n d => n.im / d.im) (numerList e ε N l)
    (denomList e ε N l)

/-- Top-level `trpz_opt(time_array, N_fft, excen, epsi)`: the two input
assertions (lines 34–35) then the array pipeline. -/
noncomputable def trpz_opt (l : List ℝ) (N : ℕ) (e ε : ℝ) :
    Except String (List ℝ) :=
  if N ≤ 1 then .error "Need at least two FFT grid-point!"
  else if e ≤ 1 then .error "eccentricity must be grater than one!"
  else .ok (z0List e ε N l)

/-- Whether a result is an assertion failure. -/
def errored (r : Except String (List ℝ)) : Bool :=
  match r with
  | .error _ => true
  | .ok _ => false

/-- The literal composite trapezoidal rule with step `h` over the `N`
nodes (the reference formula of spec §4.4, stated from the spec's words
for comparison with the source's unscaled accumulation `sumTrapz`). -/
noncomputable def trapezoidRule (N : ℕ) (h : ℝ) (f : ℕ → ℂ) : ℂ :=
  ∑ k in Finset.range (N - 1), (h : ℂ) / 2 * (f k + f (k + 1))

/-! ### Threshold facts -/

lemma t1val_nonneg {e : ℝ} (he : 1 ≤ e) : 0 ≤ t1val e := by
  unfold t1val
  have h1 : (0:ℝ) ≤ e - 1 := by linarith
  positivity

lemma t1val_two : t1val 2 = Real.sqrt 6 / Real.sqrt (Real.exp 1) := by
  unfold t1val
  norm_num [Real.one_rpow]

lemma one_le_t1val_two : 1 ≤ t1val 2 := by
  rw [t1val_two, le_div_iff₀ (Real.sqrt_pos.mpr (Real.exp_pos 1))]
  rw [one_mul]
  exact Real.sqrt_le_sqrt (le_trans (le_of_lt Real.exp_one_lt_d9) (by norm_num))

lemma t1val_two_lt_two : t1val 2 < 2 := by
  rw [t1val_two, div_lt_iff₀ (Real.sqrt_pos.mpr (Real.exp_pos 1))]
  have h4 : (2:ℝ) * Real.sqrt (Real.exp 1) = Real.sqrt (4 * Real.exp 1) := by
    rw [show (4:ℝ) * Real.exp 1 = 2^2 * Real.exp 1 by norm_num,
      Real.sqrt_mul (by positivity), Real.sqrt_sq (by norm_num)]
  rw [h4]
  exact Real.sqrt_lt_sqrt (by norm_num) (by nlinarith [Real.exp_one_gt_d9])

lemma t1val_two_lt_three : t1val 2 < 3 := lt_trans t1val_two_lt_two (by norm_num)

/-! ### Bucketing as a permutation of the per-element formula -/

lemma filter_gt_eq_filter_not_le (t : ℝ) (l : List ℝ) :
    l.filter (fun M => decide (t < M)) =
      l.filter (fun M => !decide (M ≤ t)) := by
  apply List.filter_congr
  intro a _
  by_cases h : a ≤ t
  · simp [h, not_lt.mpr h]
  · simp [h, not_le.mp h]

lemma xmasList_perm (e : ℝ) (l : List ℝ) :
    (xmasList e l).Perm (l.map (xmasFormula e)) := by
  unfold xmasList
  set p1 : ℝ → Bool := fun M => decide (M ≤ t1val e) with hp1
  set p2 : ℝ → Bool := fun M => decide (M ≤ 14.907 * e) with hp2
  set a1 := l.filter (fun M => decide (t1val e < M)) with ha1
  have hm1 : (l.filter p1).map (fun M => M / (e - 1)) =
      (l.filter p1).map (xmasFormula e) := by
    apply List.map_congr_left
    intro a ha
    rw [List.mem_filter] at ha
    have h : a ≤ t1val e := of_decide_eq_true ha.2
    unfold xmasFormula
    rw [if_pos h]
  have hm2 : ((a1.filter p2).map
        (fun M => (6 * M / e) ^ ((0.3333333333333 : ℝ)))) =
      (a1.filter p2).map (xmasFormula e) := by
    apply List.map_congr_left
    intro a ha
    rw [List.mem_filter] at ha
    have h2 : a ≤ 14.907 * e := of_decide_eq_true ha.2
    have h1 : t1val e < a := by
      have := ha.1
      rw [ha1, List.mem_filter] at this
      exact of_decide_eq_true this.2
    unfold xmasFormula
    rw [if_neg (not_le.mpr h1), if_pos h2]
  have hm3 : ((a1.filter (fun M => decide (14.907 * e < M))).map
        (fun M => (120 * M / e) ^ ((0.2 : ℝ)))) =
      (a1.filter (fun M => decide (14.907 * e < M))).map (xmasFormula e) := by
    apply List.map_congr_left
    intro a ha
    rw [List.mem_filter] at ha
    have h2 : 14.907 * e < a := of_decide_eq_true ha.2
    have h1 : t1val e < a := by
      have := ha.1
      rw [ha1, List.mem_filter] at this
      exact of_decide_eq_true this.2
    unfold xmasFormula
    rw [if_neg (not_le.mpr h1), if_neg (not_le.mpr h2)]
  rw [hm1, hm2, hm3, ← List.map_append, ← List.map_append]
  apply List.Perm.map
  have hbc : ((a1.filter p2) ++
      a1.filter (fun M => decide (14.907 * e < M))).Perm a1 := by
    rw [filter_gt_eq_filter_not_le]
    exact List.filter_append_perm p2 a1
  have step1 : (l.filter p1 ++ ((a1.filter p2) ++
      a1.filter (fun M => decide (14.907 * e < M)))).Perm
      (l.filter p1 ++ a1) :=
    List.Perm.append_left _ hbc
  have step2 : (l.filter p1 ++ a1).Perm l := by
    rw [ha1, filter_gt_eq_filter_not_le]
    exact List.filter_append_perm p1 l
  rw [List.append_assoc]
  exact step1.trans step2

/-! ### Concrete bucket evaluations -/

lemma xmasList_unsorted : xmasList 2 [3, 1] = [1, (9:ℝ) ^ ((0.3333333333333 : ℝ))] := by
  have h3 : ¬((3:ℝ) ≤ t1val 2) := not_le.mpr t1val_two_lt_three
  have h1 : (1:ℝ) ≤ t1val 2 := one_le_t1val_two
  have h32 : (3:ℝ) ≤ 14.907 * 2 := by norm_num
  simp [xmasList, h3, h1, not_lt.mpr h1, t1val_two_lt_three, h32, not_lt.mpr h32]
  norm_num

lemma xmasList_zero : xmasList 2 [0] = [0] := by
  have h0 : (0:ℝ) ≤ t1val 2 := le_trans (by norm_num) one_le_t1val_two
  simp [xmasList, h0, not_lt.mpr h0]

lemma xmasList_cbrt : xmasList 2 [8/3] = [(8:ℝ) ^ ((0.3333333333333 : ℝ))] := by
  have h3 : ¬((8/3:ℝ) ≤ t1val 2) :=
    not_le.mpr (lt_trans t1val_two_lt_two (by norm_num))
  have h32 : (8/3:ℝ) ≤ 14.907 * 2 := by norm_num
  simp [xmasList, h3, not_le.mp h3, h32, not_lt.mpr h32]
  norm_num

/-! ### Power facts for the regime exponents -/

lemma nine_rpow_gt_one : (1:ℝ) < (9:ℝ) ^ ((0.3333333333333 : ℝ)) :=
  (Real.one_lt_rpow_iff_of_pos (by norm_num)).mpr
    (Or.inl ⟨by norm_num, by norm_num⟩)

lemma eight_rpow_third : (8:ℝ) ^ ((1:ℝ)/3) = 2 := by
  rw [show (8:ℝ) = 2 ^ (3:ℕ) by norm_num, ← Real.rpow_natCast 2 3,
    ← Real.rpow_mul (by norm_num : (0:ℝ) ≤ 2)]
  norm_num

lemma eight_rpow_lit_lt_two : (8:ℝ) ^ ((0.3333333333333 : ℝ)) < 2 := by
  rw [show (8:ℝ) = 2 ^ (3:ℕ) by norm_num, ← Real.rpow_natCast 2 3,
    ← Real.rpow_mul (by norm_num : (0:ℝ) ≤ 2)]
  have h1 : (2:ℝ) ^ ((3:ℝ) * 0.3333333333333) < 2 ^ (1:ℝ) :=
    Real.rpow_lt_rpow_of_exponent_lt (by norm_num) (by norm_num)
  rw [Real.rpow_one] at h1
  exact h1

lemma twelvethousand_rpow_lt_ten : ((12000:ℝ)) ^ ((0.2:ℝ)) < 10 := by
  have h10 : (10:ℝ) = ((100000:ℝ)) ^ ((0.2:ℝ)) := by
    rw [show (100000:ℝ) = 10 ^ (5:ℕ) by norm_num, ← Real.rpow_natCast 10 5,
      ← Real.rpow_mul (by norm_num : (0:ℝ) ≤ 10)]
    norm_num
  rw [h10]
  exact Real.rpow_lt_rpow (by norm_num) (by norm_num) (by norm_num)

lemma million_le_t1val : (1000000:ℝ) ≤ t1val 10000 := by
  unfold t1val
  rw [le_div_iff₀ (Real.sqrt_pos.mpr (Real.exp_pos 1))]
  rw [show ((10000:ℝ) - 1) = 9999 by norm_num]
  have hr : (9999:ℝ) ^ ((1.5:ℝ)) = Real.sqrt ((9999:ℝ)^(3:ℕ)) := by
    rw [Real.sqrt_eq_rpow, ← Real.rpow_natCast 9999 3,
      ← Real.rpow_mul (by norm_num : (0:ℝ) ≤ 9999)]
    norm_num
  rw [hr, ← Real.sqrt_mul (by norm_num : (0:ℝ) ≤ 6)]
  have hL : (1000000:ℝ) * Real.sqrt (Real.exp 1) =
      Real.sqrt ((1000000:ℝ)^2 * Real.exp 1) := by
    rw [Real.sqrt_mul (by positivity), Real.sqrt_sq (by norm_num)]
  rw [hL]
  apply Real.sqrt_le_sqrt
  nlinarith [Real.exp_one_lt_d9]

/-! ### Hyperbolic-sine facts for negative anomalies -/

lemma sinh_lt_self_of_neg {t : ℝ} (ht : t < 0) : Real.sinh t < t := by
  have h := Real.self_lt_sinh_iff.mpr (show 0 < -t by linarith)
  rw [Real.sinh_neg] at h
  linarith

lemma div_lt_arsinh_div {e M : ℝ} (he : 1 < e) (hM : M < 0) :
    M / (e - 1) < Real.arsinh (M / e) := by
  have he1 : (0:ℝ) < e - 1 := by linarith
  have he0 : (0:ℝ) < e := by linarith
  have hdd : M / (e - 1) < M / e := by
    rw [div_lt_div_iff₀ he1 he0]
    nlinarith
  have hneg : M / (e - 1) < 0 := div_neg_of_neg_of_pos hM he1
  have hs : Real.sinh (M / (e - 1)) < M / e :=
    lt_trans (sinh_lt_self_of_neg hneg) hdd
  have harv : M / (e - 1) = Real.arsinh (Real.sinh (M / (e - 1))) :=
    (Real.arsinh_sinh _).symm
  rw [harv]
  exact Real.arsinh_lt_arsinh.mpr hs

/-! ### Element access through the zipped pipeline -/

lemma zipWith_getD {α β γ : Type} (f : α → β → γ) (da : α) (db : β) (dc : γ)
    (hfd : f da db = dc) :
    ∀ (as bs : List _) (i : ℕ), as.length = bs.length →
      (List.zipWith f as bs).getD i dc = f (as.getD i da) (bs.getD i db) := by
  intro as
  induction as with
  | nil =>
    intro bs i hlen
    cases bs with
    | nil => simp [hfd]
    | cons b bs => simp at hlen
  | cons a as ih =>
    intro bs i hlen
    cases bs with
    | nil => simp at hlen
    | cons b bs =>
      cases i with
      | zero => simp
      | succ j =>
        simp only [List.zipWith_cons_cons, List.getD_cons_succ]
        exact ih bs j (by simpa using hlen)

lemma numer_denom_length (e ε : ℝ) (N : ℕ) (l : List ℝ) :
    (numerList e ε N l).length = (denomList e ε N l).length := by
  simp [numerList, denomList]

lemma z0List_getD (e ε : ℝ) (N : ℕ) (l : List ℝ) (i : ℕ) :
    (z0List e ε N l).getD i 0 =
      ((numerList e ε N l).getD i 0).im /
        ((denomList e ε N l).getD i 0).im := by
  unfold z0List
  exact zipWith_getD _ 0 0 0 (by simp) _ _ i (numer_denom_length e ε N l)

/-! ### The collapsed contour at zero mean anomaly -/

lemma xmenosList_zero : xmenosList 2 [0] = [0] := by
  simp [xmenosList, Real.arsinh_zero]

lemma muList_zero : muList 2 [0] = [0] := by
  simp [muList, xmasList_zero, xmenosList_zero]

lemma rhoList_zero : rhoList 2 [0] = [0] := by
  simp [rhoList, xmasList_zero, xmenosList_zero]

lemma contourPoint_collapsed (ε x : ℝ) : contourPoint 0 0 ε x = 0 := by
  simp [contourPoint]

lemma tablaD_rho_zero (e ε : ℝ) (N : ℕ) (mu M : ℝ) (k : ℕ) :
    tablaD e ε N mu 0 M k = 0 := by
  simp [tablaD]

lemma tablaN_rho_zero (e ε : ℝ) (N : ℕ) (mu M : ℝ) (k : ℕ) :
    tablaN e ε N mu 0 M k = 0 := by
  simp [tablaN, tablaD_rho_zero]

lemma denomOne_rho_zero (e ε : ℝ) (N : ℕ) (mu M : ℝ) :
    denomOne e ε N mu 0 M = 0 := by
  simp [denomOne, sumTrapz, tablaD_rho_zero]

lemma numerOne_rho_zero (e ε : ℝ) (N : ℕ) (mu M : ℝ) :
    numerOne e ε N mu 0 M = 0 := by
  simp [numerOne, sumTrapz, tablaN_rho_zero]

lemma denomList_M0 : denomList 2 1 2 [0] = [0] := by
  simp [denomList, muList_zero, rhoList_zero, denomOne_rho_zero]

lemma numerList_M0 : numerList 2 1 2 [0] = [0] := by
  simp [numerList, muList_zero, rhoList_zero, numerOne_rho_zero]

lemma z0List_M0 : z0List 2 1 2 [0] = [0] := by
  simp [z0List, numerList_M0, denomList_M0]

/-! ### The scale factor omitted by the source's accumulation -/

lemma trapezoidRule_eq_scale (N : ℕ) (h : ℝ) (f : ℕ → ℂ) (hN : 2 ≤ N) :
    trapezoidRule N h f = (h : ℂ) / 2 * sumTrapz N f := by
  obtain ⟨m, rfl⟩ : ∃ m, N = m + 2 := ⟨N - 2, by omega⟩
  unfold trapezoidRule sumTrapz
  have hm1 : m + 2 - 1 = m + 1 := by omega
  rw [hm1, ← Finset.mul_sum, Finset.sum_add_distrib]
  have h1 : ∑ k in Finset.range (m + 1), f k =
      f 0 + ∑ k in Finset.Ico 1 (m + 1), f k := by
    rw [Finset.range_eq_Ico]
    exact Finset.sum_eq_sum_Ico_succ_bot (by omega) f
  have h2 : ∑ k in Finset.range (m + 1), f (k + 1) =
      (∑ k in Finset.Ico 1 (m + 1), f k) + f (m + 1) := by
    have hre : ∑ k in Finset.Ico 1 (m + 2), f k =
        ∑ k in Finset.range (m + 1), f (1 + k) := by
      rw [Finset.sum_Ico_eq_sum_range]
      norm_num
    have hcomm : ∑ k in Finset.range (m + 1), f (1 + k) =
        ∑ k in Finset.range (m + 1), f (k + 1) := by
      apply Finset.sum_congr rfl
      intro k _
      rw [add_comm]
    have htop : ∑ k in Finset.Ico 1 (m + 2), f k =
        (∑ k in Finset.Ico 1 (m + 1), f k) + f (m + 1) :=
      Finset.sum_Ico_succ_top (by omega) f
    rw [← hcomm, ← hre, htop]
  rw [h1, h2]
  ring

/-! ## Claim theorems -/

/-- C1: the bucket-and-concatenate construction (lines 46–56) breaks
positional alignment on unsorted input.  For `time_array = [3, 1]` and
`e = 2` the source places `M = 1`'s linear-regime bound at index 0 and
`M = 3`'s cubic-regime bound at index 1, the reverse of the
index-aligned assignment `xmasFormula`, so the output array is not
positionally aligned with the input. -/
theorem bucket_misalignment_on_unsorted :
    xmasList 2 [3, 1] = [1, (9:ℝ) ^ ((0.3333333333333 : ℝ))] ∧
    [(3:ℝ), 1].map (xmasFormula 2) = [(9:ℝ) ^ ((0.3333333333333 : ℝ)), 1] ∧
    xmasList 2 [3, 1] ≠ [(3:ℝ), 1].map (xmasFormula 2) := by
  have h3 : ¬((3:ℝ) ≤ t1val 2) := not_le.mpr t1val_two_lt_three
  have h1 : (1:ℝ) ≤ t1val 2 := one_le_t1val_two
  have h32 : (3:ℝ) ≤ 14.907 * 2 := by norm_num
  have hform : [(3:ℝ), 1].map (xmasFormula 2) =
      [(9:ℝ) ^ ((0.3333333333333 : ℝ)), 1] := by
    simp [xmasFormula, h3, h1, h32]
    norm_num
  refine ⟨xmasList_unsorted, hform, ?_⟩
  rw [xmasList_unsorted, hform]
  intro hcontra
  simp only [List.cons.injEq] at hcontra
  exact ne_of_lt nine_rpow_gt_one hcontra.1

/-- C3: at mean anomaly `M = 0` the contour collapses to the single
point 0 (`mu = rho = 0`), and there the defining function
`e·sinh(z) − z − M` is exactly 0 at every quadrature node, so `gnueva`
divides by zero: the floating-point program propagates `inf·0 = NaN`
instead of returning the root `z0 = 0`. -/
theorem zero_anomaly_degenerate_contour (k : ℕ) :
    muList 2 [0] = [0] ∧ rhoList 2 [0] = [0] ∧
    (2:ℂ) * Complex.sinh (contourPoint 0 0 1 (node 2 k)) -
        contourPoint 0 0 1 (node 2 k) - ((0:ℝ):ℂ) = 0 := by
  refine ⟨muList_zero, rhoList_zero, ?_⟩
  rw [contourPoint_collapsed]
  simp

/-- C4 (amended): when the accumulated denominator's imaginary part is
zero for element `i`, no per-element condition is surfaced: `trpz_opt`
still returns a plain `ok` array and the `i`-th entry is produced by
dividing by that zero imaginary part. -/
theorem no_degeneracy_condition_surfaced (l : List ℝ) (N : ℕ) (e ε : ℝ)
    (i : ℕ) (hN : 1 < N) (he : 1 < e)
    (hIm : ((denomList e ε N l).getD i 0).im = 0) :
    trpz_opt l N e ε = .ok (z0List e ε N l) ∧
      (z0List e ε N l).getD i 0 =
        ((numerList e ε N l).getD i 0).im / 0 := by
  constructor
  · unfold trpz_opt
    rw [if_neg (by omega), if_neg (not_le.mpr he)]
  · rw [z0List_getD, hIm]

/-- Witness for the amended C4 at `time_array = [0]`, `N = 2`, `e = 2`,
`ε = 1`, where the accumulated denominator is exactly 0. -/
theorem no_degeneracy_condition_surfaced_witness :
    trpz_opt [0] 2 2 1 = .ok (z0List 2 1 2 [0]) ∧
      (z0List 2 1 2 [0]).getD 0 0 =
        ((numerList 2 1 2 [0]).getD 0 0).im / 0 :=
  no_degeneracy_condition_surfaced [0] 2 2 1 0 (by norm_num) (by norm_num)
    (by rw [denomList_M0]; simp)

/-- C4 counterexample to the claim as stated: at `time_array = [0]`
(with `N = 2`, `e = 2`, `ε = 1`) the accumulated denominator's imaginary
part is zero, yet `trpz_opt` returns an ordinary value array — no
division-degeneracy condition is surfaced to the caller. -/
theorem degeneracy_not_surfaced_cex :
    ((denomList 2 1 2 [0]).getD 0 0).im = 0 ∧
      trpz_opt [0] 2 2 1 = .ok [0] := by
  constructor
  · rw [denomList_M0]
    simp
  · unfold trpz_opt
    rw [if_neg (by norm_num), if_neg (by norm_num), z0List_M0]

/-- C5: `trpz_opt` fails with an invalid-argument condition exactly when
`N ≤ 1` or `e ≤ 1` (the two assertions of lines 34–35), and in that case
the result does not depend on the input array — validation happens
before any array computation. -/
theorem trpz_opt_validation (l l' : List ℝ) (N : ℕ) (e ε : ℝ) :
    (errored (trpz_opt l N e ε) = true ↔ (N ≤ 1 ∨ e ≤ 1)) ∧
      ((N ≤ 1 ∨ e ≤ 1) → trpz_opt l N e ε = trpz_opt l' N e ε) := by
  constructor
  · unfold trpz_opt errored
    by_cases hN : N ≤ 1
    · simp [hN]
    · by_cases he : e ≤ 1 <;> simp [hN, he]
  · intro h
    unfold trpz_opt
    rcases h with h | h
    · rw [if_pos h, if_pos h]
    · by_cases hN : N ≤ 1
      · rw [if_pos hN, if_pos hN]
      · rw [if_neg hN, if_neg hN, if_pos h, if_pos h]

/-- Witness for C5 at `N = 1`, `e = 2`: the quadrature-order assertion
fires and the result ignores the input array. -/
theorem trpz_opt_validation_witness :
    (errored (trpz_opt [1, 2] 1 2 1) = true ↔ ((1:ℕ) ≤ 1 ∨ (2:ℝ) ≤ 1)) ∧
      (((1:ℕ) ≤ 1 ∨ (2:ℝ) ≤ 1) → trpz_opt [1, 2] 1 2 1 = trpz_opt [] 1 2 1) :=
  trpz_opt_validation [1, 2] [] 1 2 1

/-- C6 counterexample to the claim as stated: for `e = 2`, `M = 8/3`
(cubic regime, `6M/e = 8`) the source computes `8 ** 0.3333333333333`,
which is strictly below the claimed `(6M/e)^(1/3) = 2`. -/
theorem cbrt_exponent_cex :
    xmasList 2 [8/3] = [(8:ℝ) ^ ((0.3333333333333 : ℝ))] ∧
    (8:ℝ) ^ ((1:ℝ)/3) = 2 ∧
    (8:ℝ) ^ ((0.3333333333333 : ℝ)) < 2 :=
  ⟨xmasList_cbrt, eight_rpow_third, eight_rpow_lit_lt_two⟩

/-- C6 (amended): every input element is assigned exactly the regime
formula for its own magnitude — `M/(e−1)` if `M ≤ t1`, else
`(6M/e)^0.3333333333333` if `M ≤ 14.907·e`, else `(120M/e)^0.2` — with
the computed estimates forming a permutation (in bucket order) of the
index-aligned per-element map. -/
theorem xmas_regime_formula_per_element (e : ℝ) (l : List ℝ) :
    (xmasList e l).Perm (l.map (xmasFormula e)) :=
  xmasList_perm e l

/-- C9: an empty input array passes through every stage and yields an
empty output array with no error. -/
theorem trpz_opt_empty (N : ℕ) (e ε : ℝ) (hN : 1 < N) (he : 1 < e) :
    trpz_opt [] N e ε = .ok [] := by
  unfold trpz_opt
  rw [if_neg (by omega), if_neg (not_le.mpr he)]
  have hz : z0List e ε N [] = [] := by
    simp [z0List, numerList, denomList, muList, rhoList, xmasList, xmenosList]
  rw [hz]

/-- Witness for C9 at `N = 2`, `e = 2`, `ε = 1`. -/
theorem trpz_opt_empty_witness : trpz_opt [] 2 2 1 = .ok [] :=
  trpz_opt_empty 2 2 1 (by norm_num) (by norm_num)

/-- C7: the quadrature nodes are `N` angles uniformly spaced on
`[0, π]` (first node 0, last node π, constant spacing `π/(N−1)`), both
tables are accumulated as `f(x_0) + f(x_{N−1}) + 2·Σ_{k=1}^{N−2} f(x_k)`,
and multiplying that accumulation by the omitted constant factor
`(π/(N−1))/2` recovers the literal composite trapezoidal rule. -/
theorem trapezoidal_accumulation (e ε mu rho M : ℝ) (N k : ℕ)
    (hN : 2 ≤ N) :
    node N 0 = 0 ∧ node N (N - 1) = Real.pi ∧
    node N (k + 1) - node N k = Real.pi / ((N:ℝ) - 1) ∧
    numerOne e ε N mu rho M =
      tablaN e ε N mu rho M 0 + tablaN e ε N mu rho M (N - 1) +
        2 * ∑ j in Finset.Ico 1 (N - 1), tablaN e ε N mu rho M j ∧
    denomOne e ε N mu rho M =
      tablaD e ε N mu rho M 0 + tablaD e ε N mu rho M (N - 1) +
        2 * ∑ j in Finset.Ico 1 (N - 1), tablaD e ε N mu rho M j ∧
    trapezoidRule N (Real.pi / ((N:ℝ) - 1)) (tablaN e ε N mu rho M) =
      ((Real.pi / ((N:ℝ) - 1) : ℝ) : ℂ) / 2 * numerOne e ε N mu rho M ∧
    trapezoidRule N (Real.pi / ((N:ℝ) - 1)) (tablaD e ε N mu rho M) =
      ((Real.pi / ((N:ℝ) - 1) : ℝ) : ℂ) / 2 * denomOne e ε N mu rho M := by
  have hNR : (2:ℝ) ≤ (N:ℝ) := by exact_mod_cast hN
  have hne : ((N:ℝ) - 1) ≠ 0 := by linarith
  refine ⟨?_, ?_, ?_, rfl, rfl, ?_, ?_⟩
  · simp [node]
  · unfold node
    rw [Nat.cast_sub (by omega), Nat.cast_one]
    field_simp
  · unfold node
    field_simp
    ring
  · exact trapezoidRule_eq_scale N _ _ hN
  · exact trapezoidRule_eq_scale N _ _ hN

/-- Witness for C7 at `N = 2`, `e = 2`, `ε = 1`, `mu = 0`, `rho = 1`,
`M = 1`, `k = 0`. -/
theorem trapezoidal_accumulation_witness :
    node 2 0 = 0 ∧ node 2 (2 - 1) = Real.pi ∧
    node 2 (0 + 1) - node 2 0 = Real.pi / ((2:ℝ) - 1) ∧
    numerOne 2 1 2 0 1 1 =
      tablaN 2 1 2 0 1 1 0 + tablaN 2 1 2 0 1 1 (2 - 1) +
        2 * ∑ j in Finset.Ico 1 (2 - 1), tablaN 2 1 2 0 1 1 j ∧
    denomOne 2 1 2 0 1 1 =
      tablaD 2 1 2 0 1 1 0 + tablaD 2 1 2 0 1 1 (2 - 1) +
        2 * ∑ j in Finset.Ico 1 (2 - 1), tablaD 2 1 2 0 1 1 j ∧
    trapezoidRule 2 (Real.pi / ((2:ℝ) - 1)) (tablaN 2 1 2 0 1 1) =
      ((Real.pi / ((2:ℝ) - 1) : ℝ) : ℂ) / 2 * numerOne 2 1 2 0 1 1 ∧
    trapezoidRule 2 (Real.pi / ((2:ℝ) - 1)) (tablaD 2 1 2 0 1 1) =
      ((Real.pi / ((2:ℝ) - 1) : ℝ) : ℂ) / 2 * denomOne 2 1 2 0 1 1 :=
  trapezoidal_accumulation 2 1 0 1 1 2 0 (by norm_num)

/-- C10 (amended): once both assertions pass, `trpz_opt` reports no
further condition for any input; every `M < 0` falls in the linear
regime with `M/(e−1)` strictly below the analytic lower bound
`asinh(M/e)` (a negative contour radius); and an `M > 95.2669·e` is
assigned the quintic formula when it also exceeds `t1` (for very large
`e` the threshold `t1` itself can exceed `95.2669·e`, see the
counterexample). -/
theorem trpz_opt_regime_extremes (l : List ℝ) (N : ℕ) (e ε M : ℝ)
    (hN : 1 < N) (he : 1 < e) :
    trpz_opt l N e ε = .ok (z0List e ε N l) ∧
      (M < 0 → M ≤ t1val e ∧ xmasFormula e M = M / (e - 1) ∧
        M / (e - 1) < Real.arsinh (M / e)) ∧
      (95.2669 * e < M → ¬(M ≤ t1val e) →
        xmasFormula e M = (120 * M / e) ^ ((0.2 : ℝ))) := by
  refine ⟨?_, ?_, ?_⟩
  · unfold trpz_opt
    rw [if_neg (by omega), if_neg (not_le.mpr he)]
  · intro hM
    have ht : M ≤ t1val e := le_trans (le_of_lt hM) (t1val_nonneg (le_of_lt he))
    refine ⟨ht, ?_, div_lt_arsinh_div he hM⟩
    unfold xmasFormula
    rw [if_pos ht]
  · intro hM ht1
    have h2 : ¬(M ≤ 14.907 * e) := by
      push_neg
      nlinarith
    unfold xmasFormula
    rw [if_neg ht1, if_neg h2]

/-- Witness for the amended C10 at `e = 2`, `N = 2`, `ε = 1`,
`l = [-1]`, `M = -1`. -/
theorem trpz_opt_regime_extremes_witness :
    trpz_opt [-1] 2 2 1 = .ok (z0List 2 1 2 [-1]) ∧
      ((-1:ℝ) < 0 → (-1:ℝ) ≤ t1val 2 ∧
        xmasFormula 2 (-1) = (-1) / (2 - 1) ∧
        (-1:ℝ) / (2 - 1) < Real.arsinh ((-1) / 2)) ∧
      (95.2669 * 2 < (-1:ℝ) → ¬((-1:ℝ) ≤ t1val 2) →
        xmasFormula 2 (-1) = (120 * (-1) / 2) ^ ((0.2 : ℝ))) :=
  trpz_opt_regime_extremes [-1] 2 2 1 (-1) (by norm_num) (by norm_num)

/-- C10 counterexample to the claim as stated: for `e = 10000` the
threshold `t1 = sqrt(6)·9999^1.5/sqrt(e_natural)` exceeds `10^6`, so
the input `M = 10^6 > 95.2669·e` is filtered into the *linear* bucket
and gets `M/(e−1)`, not the quintic formula `(120M/e)^0.2`. -/
theorem large_anomaly_linear_regime_cex :
    95.2669 * (10000:ℝ) < 1000000 ∧
    (1000000:ℝ) ≤ t1val 10000 ∧
    xmasList 10000 [1000000] = [1000000 / (10000 - 1)] ∧
    xmasFormula 10000 1000000 = 1000000 / (10000 - 1) ∧
    (1000000:ℝ) / (10000 - 1) ≠ (120 * 1000000 / 10000) ^ ((0.2:ℝ)) := by
  have hle := million_le_t1val
  refine ⟨by norm_num, hle, ?_, ?_, ?_⟩
  · simp [xmasList, hle, not_lt.mpr hle]
  · unfold xmasFormula
    rw [if_pos hle]
  · rw [show (120:ℝ) * 1000000 / 10000 = 12000 by norm_num]
    intro hcontra
    have hlt := twelvethousand_rpow_lt_ten
    rw [← hcontra] at hlt
    norm_num at hlt
